import Mathlib

/-!
Shallow embedding of the SynthoML statistical synthetic-data generator:
`src/simple_generator.py` (SimpleGenerator.fit / SimpleGenerator.sample,
train_simple_generator, save_simple_model), `src/inference.py`
(load_model / generate, module-level `_model_cache`) and
`src/train_and_save_ctgan.py` (detect_categorical_columns).

Modelling conventions:
  - A Python float cell is a rational number; pandas/NumPy NaN (the missing
    marker, and the result of undefined statistics) is `Option.none`
    of `PFloat := Option ℚ`.  NaN-propagation of float arithmetic is the
    `none`-propagation of `pfAdd` / `pfMul` / `pfMax2` / `pfMin2`.
  - NumPy's global Mersenne-Twister stream is modelled by a deterministic
    pure generator state (`Nat`) threaded explicitly; `np.random.seed`
    resets it as a pure function of the seed.  The exact variates of the
    external library are not load-bearing, only determinism, the number of
    draws, parameter validation and NaN propagation; the Gaussian/uniform
    bit-stream transforms are therefore modelled by an explicit LCG.
  - The floating-point square root taken by `pandas.Series.std` is modelled
    by `floatSqrt` (an exact rounding of the real square root to ℚ, as the
    float sqrt is a rounding to dyadic ℚ; the bracketing lemmas
    `natSqrt_sq_le` and `natSqrt_lt_succ_sq` pin it down).
  - Python exceptions are `Except PyErr`; `ValueError` is the spec's
    `InvalidArgument`, `FileNotFoundError` the spec's `NotFoundError`.
  - `joblib.dump` / `joblib.load` (opaque external serialization with exact
    round-trip per spec §6) are a finite-map file system
    `FS := String → Option ModelData` updated by `save_simple_model` and
    read by `load_model`.
-/

attribute [local semireducible] Rat.mul Rat.add Rat.sub Rat.inv

/-- Bounded linear search for the integer square root: largest `k` reached
from `k0` with `(k+1)² ≤ n`, within `fuel` steps. -/
def natSqrtGo (n : Nat) : Nat → Nat → Nat
  | 0, k => k
  | fuel + 1, k => if (k + 1) * (k + 1) ≤ n then natSqrtGo n fuel (k + 1) else k

/-- The integer square root ⌊√n⌋ (kernel-reducible). -/
def natSqrt (n : Nat) : Nat := natSqrtGo n n 0

/-- Integer square root on integers (0 on negatives, which never arise). -/
def intSqrt (i : Int) : Int := (natSqrt i.toNat : Int)

/-- The floating-point square root taken by `pandas.Series.std`, modelled
as an exact rounding of the real square root to ℚ (the float sqrt rounds
to dyadic rationals; the exact rounding is not load-bearing). -/
def floatSqrt (q : ℚ) : ℚ := mkRat (intSqrt q.num) (natSqrt q.den)

/-- A non-missing Python cell value: a string (object dtype) or a float. -/
inductive PyVal where
  | s (v : String)
  | r (v : ℚ)
deriving DecidableEq, Repr

/-- A Python float, with `none` standing for NaN. -/
abbrev PFloat := Option ℚ

/-- Float addition; NaN propagates. -/
def pfAdd : PFloat → PFloat → PFloat
  | some a, some b => some (a + b)
  | _, _ => none

/-- Float multiplication; NaN propagates (as it does for float NaN). -/
def pfMul : PFloat → PFloat → PFloat
  | some a, some b => some (a * b)
  | _, _ => none

/-- `np.maximum` on scalars; NaN propagates. -/
def pfMax2 : PFloat → PFloat → PFloat
  | some a, some b => some (max a b)
  | _, _ => none

/-- `np.minimum` on scalars; NaN propagates. -/
def pfMin2 : PFloat → PFloat → PFloat
  | some a, some b => some (min a b)
  | _, _ => none

/-- `np.clip(x, lo, hi) = np.minimum(np.maximum(x, lo), hi)` on one cell. -/
def pfClip (x lo hi : PFloat) : PFloat := pfMin2 (pfMax2 x lo) hi

/-- One column of a pandas DataFrame: object dtype (strings) or numeric
dtype (floats); a `none` cell is NaN, i.e. missing. -/
inductive ColData where
  | objCol (cells : List (Option String))
  | numCol (cells : List (Option ℚ))
deriving DecidableEq, Repr

/-- A pandas DataFrame: the index length (`len(df)`) and the ordered,
named columns. -/
structure DataFrame where
  nrows : Nat
  cols : List (String × ColData)
deriving DecidableEq, Repr

/-- Whether `df[col].dtype == 'object'`. -/
def ColData.isObj : ColData → Bool
  | .objCol _ => true
  | .numCol _ => false

/-- The non-missing cells of a column, as generic Python values. -/
def ColData.nonMissing : ColData → List PyVal
  | .objCol cells => (cells.filterMap id).map PyVal.s
  | .numCol cells => (cells.filterMap id).map PyVal.r

/-- Distinct elements of a list keeping the first occurrence of each, in
first-seen order (pandas `unique`). -/
def firstDedup {α : Type} [DecidableEq α] : List α → List α
  | [] => []
  | a :: t => a :: (firstDedup t).filter (fun x => decide (x ≠ a))

/-- `df[col].nunique()`: number of distinct non-missing values. -/
def ColData.nunique (d : ColData) : Nat := (firstDedup d.nonMissing).length

/-- Insert a (value, count) pair into a count-descending list, after all
entries of count ≥ its own (stable descending insertion). -/
def insertByCount (p : PyVal × Nat) : List (PyVal × Nat) → List (PyVal × Nat)
  | [] => [p]
  | q :: t => if q.2 < p.2 then p :: q :: t else q :: insertByCount p t

/-- Sort (value, count) pairs by descending count, stable in first-seen
order. -/
def sortByCountDesc (l : List (PyVal × Nat)) : List (PyVal × Nat) :=
  l.foldl (fun acc p => insertByCount p acc) []

/-- `Series.value_counts(normalize=True)`: distinct non-missing values in
descending frequency order, paired with frequencies count/total where total
is the number of non-missing cells. -/
def valueCounts (vs : List PyVal) : List PyVal × List ℚ :=
  let counted := sortByCountDesc ((firstDedup vs).map (fun v => (v, vs.count v)))
  (counted.map Prod.fst, counted.map (fun p => (p.2 : ℚ) / (vs.length : ℚ)))

/-- `Series.mean()` over the non-missing values (NaN on an empty series). -/
def pdMean (xs : List ℚ) : PFloat :=
  if xs.isEmpty then none else some (xs.sum / (xs.length : ℚ))

/-- The sample variance with the n-1 divisor, as summed by pandas. -/
def pdVar (xs : List ℚ) : ℚ :=
  ((xs.map (fun x => (x - xs.sum / (xs.length : ℚ)) ^ 2)).sum) / ((xs.length : ℚ) - 1)

/-- `Series.std()` (ddof = 1): NaN when fewer than two non-missing values,
else the (float) square root of the sample variance. -/
def pdStd (xs : List ℚ) : PFloat :=
  if xs.length ≤ 1 then none else some (floatSqrt (pdVar xs))

/-- `Series.min()` over non-missing values (NaN on an empty series). -/
def pdMin : List ℚ → PFloat
  | [] => none
  | h :: t => some (t.foldl min h)

/-- `Series.max()` over non-missing values (NaN on an empty series). -/
def pdMax : List ℚ → PFloat
  | [] => none
  | h :: t => some (t.foldl max h)

/-- A fitted per-column summary, as stored in `self.stats[col]`. -/
inductive ColSummary where
  | categorical (values : List PyVal) (probabilities : List ℚ)
  | numerical (mean std mn mx : PFloat)
deriving DecidableEq, Repr

/-- The summary `SimpleGenerator.fit` stores for one column: categorical
when the column is listed in `categorical_columns` or has object dtype,
numerical (mean/std/min/max) otherwise. -/
def fitCol (cats : List String) (name : String) : ColData → ColSummary
  | .objCol cells =>
      let vc := valueCounts ((ColData.objCol cells).nonMissing)
      .categorical vc.1 vc.2
  | .numCol cells =>
      if name ∈ cats then
        let vc := valueCounts ((ColData.numCol cells).nonMissing)
        .categorical vc.1 vc.2
      else
        let v := cells.filterMap id
        .numerical (pdMean v) (pdStd v) (pdMin v) (pdMax v)

/-- The state of a `SimpleGenerator` object. -/
structure SimpleGenerator where
  columns : List String
  categorical_columns : List String
  stats : List (String × ColSummary)
deriving DecidableEq, Repr

/-- `SimpleGenerator.__init__`. -/
def initGen : SimpleGenerator := ⟨[], [], []⟩

/-- Python dict assignment `d[k] = v`: replace in place if the key exists,
else append. -/
def insertStat (st : List (String × ColSummary)) (name : String) (s : ColSummary) :
    List (String × ColSummary) :=
  match st with
  | [] => [(name, s)]
  | (k, v) :: t => if k = name then (name, s) :: t else (k, v) :: insertStat t name s

/-- Python dict lookup `d[k]` (as an Option; `none` means KeyError). -/
def lookupStat (st : List (String × ColSummary)) (name : String) : Option ColSummary :=
  match st with
  | [] => none
  | (k, v) :: t => if k = name then some v else lookupStat t name

/-- `SimpleGenerator.fit(df, categorical_columns)`: resets `columns` and
`categorical_columns`, and assigns `self.stats[col]` for each column of
`df` — without clearing previously stored entries. -/
def SimpleGenerator.fit (g : SimpleGenerator) (df : DataFrame)
    (categorical_columns : List String) : SimpleGenerator :=
  { columns := df.cols.map Prod.fst
    categorical_columns := categorical_columns
    stats := df.cols.foldl
      (fun st p => insertStat st p.1 (fitCol categorical_columns p.1 p.2)) g.stats }

/-- `detect_categorical_columns(df, max_unique_ratio, max_unique_count)`
from `train_and_save_ctgan.py`: a column is categorical when its dtype is
object, or its distinct count is ≤ the count bound, or the ratio of its
distinct count to `len(df)` is ≤ the ratio bound. -/
def detect_categorical_columns (df : DataFrame) (max_unique_ratio : ℚ)
    (max_unique_count : Nat) : List String :=
  (df.cols.filter (fun p =>
      p.2.isObj
      || decide (p.2.nunique ≤ max_unique_count)
      || decide ((p.2.nunique : ℚ) / (df.nrows : ℚ) ≤ max_unique_ratio))).map Prod.fst

/-- Python exceptions raised by the embedded code.  `valueError` is the
spec's InvalidArgument, `fileNotFoundError` the spec's NotFoundError;
`exception` is the bare `Exception` wrapper used by `generate`. -/
inductive PyErr where
  | valueError
  | fileNotFoundError
  | keyError
  | exception
deriving DecidableEq, Repr

instance {ε α : Type} [DecidableEq ε] [DecidableEq α] : DecidableEq (Except ε α)
  | .ok a, .ok b =>
      if h : a = b then .isTrue (by rw [h]) else .isFalse (by simp [h])
  | .ok _, .error _ => .isFalse (by simp)
  | .error _, .ok _ => .isFalse (by simp)
  | .error e, .error f =>
      if h : e = f then .isTrue (by rw [h]) else .isFalse (by simp [h])

/-- One step of the deterministic pseudo-random stream standing in for
NumPy's global Mersenne Twister (a 64-bit LCG). -/
def rngNext (g : Nat) : Nat :=
  (6364136223846793005 * g + 1442695040888963407) % (2 ^ 64)

/-- `np.random.seed(s)`: rejects seeds outside [0, 2^32) with ValueError,
otherwise resets the global stream to a pure function of the seed. -/
def npSeed (s : Int) : Except PyErr Nat :=
  if s < 0 ∨ (2 ^ 32 : Int) ≤ s then .error .valueError
  else .ok (rngNext (s.toNat + 2654435769))

/-- Draw one variate (a rational in [-1/2, 1/2)) and advance the stream. -/
def drawRat (g : Nat) : ℚ × Nat :=
  let g' := rngNext g
  (((g' % 2 ^ 53 : Nat) : ℚ) / (2 ^ 53 : ℚ) - 1 / 2, g')

/-- Draw `k` variates from the stream. -/
def drawList : Nat → Nat → List ℚ × Nat
  | 0, g => ([], g)
  | k + 1, g =>
      let p := drawRat g
      let rest := drawList k p.2
      (p.1 :: rest.1, rest.2)

/-- Whether a scale parameter is rejected by `np.random.normal`
(negative; NaN passes the check since `NaN < 0` is false). -/
def badScale : PFloat → Bool
  | some v => decide (v < 0)
  | none => false

/-- `np.random.normal(mean, std, size)`: ValueError on a negative size or a
negative scale; otherwise `size` draws `mean + std * z` with NaN
parameters propagating into every output cell. -/
def npNormal (mean std : PFloat) (size : Int) (g : Nat) :
    Except PyErr (List PFloat × Nat) :=
  if size < 0 then .error .valueError
  else if badScale std then .error .valueError
  else
    let d := drawList size.toNat g
    .ok (d.1.map (fun z => pfAdd mean (pfMul std (some z))), d.2)

/-- Index selection by inverse CDF over the probability vector, as
`np.random.choice` does with cumulative sums. -/
def pickIdx : List ℚ → ℚ → Nat
  | [], _ => 0
  | q :: t, u => if u < q then 0 else pickIdx t (u - q) + 1

/-- One categorical draw from the stored values weighted by `p`. -/
def pickVal (values : List PyVal) (p : List ℚ) (u : ℚ) : PyVal :=
  values.getD (min (pickIdx p (u + 1 / 2)) (values.length - 1)) (PyVal.r 0)

/-- `np.random.choice(values, size=n, p=p)`: ValueError on an empty value
set or a negative size; otherwise `size` weighted draws with
replacement. -/
def npChoice (values : List PyVal) (size : Int) (p : List ℚ) (g : Nat) :
    Except PyErr (List PyVal × Nat) :=
  if values.isEmpty then .error .valueError
  else if size < 0 then .error .valueError
  else
    let d := drawList size.toNat g
    .ok (d.1.map (pickVal values p), d.2)

/-- One synthetic column: the array stored under the column's name in the
`synthetic_data` dict. -/
inductive OutCol where
  | cat (vs : List PyVal)
  | num (vs : List PFloat)
deriving DecidableEq, Repr

/-- Number of cells of a synthetic column. -/
def OutCol.length : OutCol → Nat
  | .cat vs => vs.length
  | .num vs => vs.length

/-- The synthetic DataFrame `pd.DataFrame(synthetic_data)`: columns in dict
insertion order. -/
abbrev DataFrameOut := List (String × OutCol)

/-- Generate one column's synthetic array from its summary: categorical
draws via `np.random.choice`, numerical via `np.random.normal` followed by
`np.clip` into the stored [min, max]. -/
def sampleCol (s : ColSummary) (n : Int) (g : Nat) : Except PyErr (OutCol × Nat) :=
  match s with
  | .categorical values probabilities =>
      match npChoice values n probabilities g with
      | .error e => .error e
      | .ok (vs, g') => .ok (.cat vs, g')
  | .numerical mean std mn mx =>
      match npNormal mean std n g with
      | .error e => .error e
      | .ok (samples, g') => .ok (.num (samples.map (fun x => pfClip x mn mx)), g')

/-- The per-column loop of `SimpleGenerator.sample`: columns in declared
order, one shared random stream, KeyError when a declared column has no
summary. -/
def sampleCols (cols : List String) (stats : List (String × ColSummary))
    (n : Int) (g : Nat) : Except PyErr (DataFrameOut × Nat) :=
  match cols with
  | [] => .ok ([], g)
  | c :: t =>
      match lookupStat stats c with
      | none => .error .keyError
      | some s =>
          match sampleCol s n g with
          | .error e => .error e
          | .ok (oc, g') =>
              match sampleCols t stats n g' with
              | .error e => .error e
              | .ok (rest, g'') => .ok ((c, oc) :: rest, g'')

/-- `SimpleGenerator.sample(n, seed)`: reseeds the global stream when a
seed is given, then draws every declared column in order from that single
stream.  `g0` is the global stream state at call time. -/
def SimpleGenerator.sample (gen : SimpleGenerator) (n : Int) (seed : Option Int)
    (g0 : Nat) : Except PyErr (DataFrameOut × Nat) :=
  match seed with
  | some s =>
      match npSeed s with
      | .error e => .error e
      | .ok g1 => sampleCols gen.columns gen.stats n g1
  | none => sampleCols gen.columns gen.stats n g0

/-- The `model_data` dict built by `train_simple_generator` and persisted
by `save_simple_model`. -/
structure ModelData where
  model : SimpleGenerator
  library : String
  categorical_columns : List String
  columns : List String
deriving DecidableEq, Repr

/-- `train_simple_generator(data_path, categorical_cols)` on the parsed
CSV: when no categorical list is supplied, auto-detects with the object
dtype / low-cardinality (≤ 20) tests only (note: no distinct-ratio test in
this fallback), then fits a fresh generator. -/
def train_simple_generator (df : DataFrame) (categorical_cols : Option (List String)) :
    ModelData :=
  let cats := match categorical_cols with
    | some l => l
    | none => (df.cols.filter (fun p => p.2.isObj || decide (p.2.nunique ≤ 20))).map Prod.fst
  { model := initGen.fit df cats
    library := "simple-statistical"
    categorical_columns := cats
    columns := df.cols.map Prod.fst }

/-- The file system seen by joblib: what `joblib.load` would deserialize at
each path (exact round-trip per spec §6; `none` = FileNotFoundError). -/
abbrev FS := String → Option ModelData

/-- `save_simple_model(model_data, output_path)`: `joblib.dump`, i.e. store
the container at the path. -/
def save_simple_model (fs : FS) (model_data : ModelData) (output_path : String) : FS :=
  fun p => if p = output_path then some model_data else fs p

/-- `load_model(model_path)` from `inference.py`, acting on the module
global `_model_cache`: when the cache is nonempty, return it (whatever the
path); otherwise `joblib.load(model_path)`, raising FileNotFoundError on a
missing file, and retain the result.  Returns the model and the new cache
state. -/
def load_model (fs : FS) (cache : Option ModelData) (model_path : String) :
    Except PyErr (ModelData × Option ModelData) :=
  match cache with
  | some m => .ok (m, some m)
  | none =>
      match fs model_path with
      | some m => .ok (m, some m)
      | none => .error .fileNotFoundError

/-- `generate(n, seed, model_path)` from `inference.py`: rejects `n ≤ 0`
with ValueError before anything else, loads through the cache, dispatches
on the library tag, and wraps generation failures as a bare Exception.
The `sdv`/`ctgan` branches call external deep-generative libraries that
are out of scope (spec §1); they are modelled as the wrapped Exception. -/
def generate (fs : FS) (cache : Option ModelData) (n : Int) (seed : Option Int)
    (model_path : String) (g : Nat) :
    Except PyErr (DataFrameOut × Option ModelData × Nat) :=
  if n ≤ 0 then .error .valueError
  else
    match load_model fs cache model_path with
    | .error e => .error e
    | .ok (model_data, cache') =>
        if model_data.library = "simple-statistical" then
          match model_data.model.sample n seed g with
          | .error _ => .error .exception
          | .ok (df, g') => .ok (df, cache', g')
        else .error .exception

/-- Whether a single summary can be drawn from without a draw-time
ValueError: a categorical summary needs a nonempty value set, a numerical
one a non-negative (or NaN) scale. -/
def sampleableB : ColSummary → Bool
  | .categorical values _ => !values.isEmpty
  | .numerical _ std _ _ => !badScale std

/-- Whether a generator is fitted: every declared column has a stored
summary, and that summary is drawable. -/
def FittedB (gen : SimpleGenerator) : Bool :=
  gen.columns.all fun c =>
    match lookupStat gen.stats c with
    | some s => sampleableB s
    | none => false

/-- Whether a synthetic float cell lies in the closed interval between two
stored floats; false whenever any of the three is NaN. -/
def inRangePF (x lo hi : PFloat) : Bool :=
  match x, lo, hi with
  | some q, some a, some b => decide (a ≤ q) && decide (q ≤ b)
  | _, _, _ => false

/-- The table of a successful sampling run, discarding the stream state. -/
def okTable (r : Except PyErr (DataFrameOut × Nat)) : Option DataFrameOut :=
  match r with
  | .ok p => some p.1
  | .error _ => none

/-- The std field of a numerical summary. -/
def stdOf : ColSummary → Option PFloat
  | .numerical _ std _ _ => some std
  | .categorical _ _ => none

/-- The spec's sample standard deviation, written independently of the
code's computation: NaN with fewer than two values, else the square root
of (Σ x² − (Σ x)²/n) / (n − 1). -/
def specSampleStd (v : List ℚ) : PFloat :=
  if v.length ≤ 1 then none
  else some (floatSqrt
    (((v.map (fun x => x ^ 2)).sum - v.sum ^ 2 / (v.length : ℚ)) / ((v.length : ℚ) - 1)))

/-- The spec §8 example training table: `age` numeric [20,30,40,50,60] and
`sex` object [M,F,M,F,M]. -/
def egDf : DataFrame :=
  ⟨5, [("age", .numCol [some 20, some 30, some 40, some 50, some 60]),
       ("sex", .objCol [some "M", some "F", some "M", some "F", some "M"])]⟩

/-- The generator fitted on the example table with `sex` declared
categorical. -/
def egGen : SimpleGenerator := initGen.fit egDf ["sex"]

/-- The example container as persisted. -/
def mdEg : ModelData :=
  ⟨egGen, "simple-statistical", ["sex"], ["age", "sex"]⟩

/-- A second, distinct persisted container (empty generator). -/
def mdEmpty : ModelData := ⟨initGen, "simple-statistical", [], []⟩

/-- A file system holding distinct containers at two paths. -/
def fsTwo : FS :=
  fun p => if p = "p1" then some mdEg else if p = "p2" then some mdEmpty else none

/-- The empty file system. -/
def fsEmpty : FS := fun _ => none

/-- A one-row table whose single numeric column has one non-missing
value. -/
def dfOne : DataFrame := ⟨1, [("x", .numCol [some 5])]⟩

/-- The generator fitted on `dfOne` with no categorical columns. -/
def genOne : SimpleGenerator := initGen.fit dfOne []

/-- A one-row table whose single numeric column is entirely missing. -/
def dfAllMissing : DataFrame := ⟨1, [("x", .numCol [none])]⟩

/-- A three-row numeric table for standard-deviation witnesses. -/
def dfThree : DataFrame := ⟨3, [("y", .numCol [some 1, some 2, some 3])]⟩

/-- Whether a seed argument is accepted by `np.random.seed`. -/
def seedOK : Option Int → Bool
  | none => true
  | some s => decide (0 ≤ s) && decide (s < (2 ^ 32 : Int))

/- ### Helper lemmas -/

theorem natSqrtGo_sq_le (n : Nat) :
    ∀ fuel k, k * k ≤ n → natSqrtGo n fuel k * natSqrtGo n fuel k ≤ n
  | 0, _, h => h
  | fuel + 1, k, h => by
      unfold natSqrtGo
      split
      · exact natSqrtGo_sq_le n fuel (k + 1) (by assumption)
      · exact h

theorem natSqrtGo_lt_succ_sq (n : Nat) :
    ∀ fuel k, n < (fuel + k + 1) * (fuel + k + 1)
      → n < (natSqrtGo n fuel k + 1) * (natSqrtGo n fuel k + 1)
  | 0, k, h => by simpa [natSqrtGo] using h
  | fuel + 1, k, h => by
      unfold natSqrtGo
      split
      · refine natSqrtGo_lt_succ_sq n fuel (k + 1) ?_
        have he : fuel + (k + 1) + 1 = fuel + 1 + k + 1 := by omega
        rw [he]
        exact h
      · exact Nat.lt_of_not_le (by assumption)

/-- `natSqrt` is the floor square root: its square is at most `n`. -/
theorem natSqrt_sq_le (n : Nat) : natSqrt n * natSqrt n ≤ n :=
  natSqrtGo_sq_le n n 0 (by simp)

/-- `natSqrt` is the floor square root: `n` is below the next square. -/
theorem natSqrt_lt_succ_sq (n : Nat) : n < (natSqrt n + 1) * (natSqrt n + 1) := by
  refine natSqrtGo_lt_succ_sq n n 0 ?_
  have h1 : n < n + 1 := Nat.lt_succ_self n
  calc n < n + 1 := h1
    _ ≤ (n + 1) * (n + 1) := Nat.le_mul_of_pos_left _ (Nat.succ_pos n)
    _ = (n + 0 + 1) * (n + 0 + 1) := by simp

/-- `floatSqrt` never returns a negative value (modelled float sqrt of the
non-negative variance). -/
theorem floatSqrt_nonneg (q : ℚ) : 0 ≤ floatSqrt q := by
  unfold floatSqrt intSqrt
  exact Rat.mkRat_nonneg (Int.ofNat_nonneg _) _

theorem lookup_insertStat_self (st : List (String × ColSummary)) (name : String)
    (s : ColSummary) : lookupStat (insertStat st name s) name = some s := by
  induction st with
  | nil => simp [insertStat, lookupStat]
  | cons p t ih =>
      obtain ⟨k, v⟩ := p
      by_cases h : k = name
      · simp [insertStat, lookupStat, h]
      · simp [insertStat, lookupStat, h, ih]

theorem lookup_insertStat_ne (st : List (String × ColSummary)) (k : String)
    (s : ColSummary) (name : String) (h : k ≠ name) :
    lookupStat (insertStat st k s) name = lookupStat st name := by
  induction st with
  | nil => simp [insertStat, lookupStat, h]
  | cons p t ih =>
      obtain ⟨k', v⟩ := p
      by_cases h' : k' = k
      · subst h'; simp [insertStat, lookupStat, h]
      · simp [insertStat, h']
        by_cases h'' : k' = name
        · simp [lookupStat, h'']
        · simp [lookupStat, h'', ih]

theorem lookup_insertStat_isSome (st : List (String × ColSummary)) (k : String)
    (s : ColSummary) (name : String)
    (h : (lookupStat st name).isSome = true) :
    (lookupStat (insertStat st k s) name).isSome = true := by
  by_cases hk : k = name
  · subst hk; rw [lookup_insertStat_self]; rfl
  · rw [lookup_insertStat_ne st k s name hk]; exact h

/-- The statistics fold of `fit` over a list of columns. -/
def fitFold (cats : List String) (cols : List (String × ColData))
    (st : List (String × ColSummary)) : List (String × ColSummary) :=
  cols.foldl (fun acc p => insertStat acc p.1 (fitCol cats p.1 p.2)) st

theorem fit_stats_eq (g : SimpleGenerator) (df : DataFrame) (cats : List String) :
    (g.fit df cats).stats = fitFold cats df.cols g.stats := rfl

theorem lookup_fitFold_isSome (cats : List String) (cols : List (String × ColData))
    (st : List (String × ColSummary)) (name : String)
    (h : (lookupStat st name).isSome = true) :
    (lookupStat (fitFold cats cols st) name).isSome = true := by
  induction cols generalizing st with
  | nil => exact h
  | cons p t ih => exact ih _ (lookup_insertStat_isSome _ _ _ _ h)

theorem lookup_fitFold_mem_isSome (cats : List String) (cols : List (String × ColData))
    (st : List (String × ColSummary)) (col : String) (d : ColData)
    (hm : (col, d) ∈ cols) :
    (lookupStat (fitFold cats cols st) col).isSome = true := by
  induction cols generalizing st with
  | nil => cases hm
  | cons p t ih =>
      rcases List.mem_cons.1 hm with h | h
      · subst h
        have hstep : fitFold cats ((col, d) :: t) st
            = fitFold cats t (insertStat st col (fitCol cats col d)) := rfl
        rw [hstep]
        refine lookup_fitFold_isSome _ _ _ _ ?_
        rw [lookup_insertStat_self]; rfl
      · exact ih _ h

theorem lookup_fitFold_notin (cats : List String) (cols : List (String × ColData))
    (st : List (String × ColSummary)) (name : String)
    (h : name ∉ cols.map Prod.fst) :
    lookupStat (fitFold cats cols st) name = lookupStat st name := by
  induction cols generalizing st with
  | nil => rfl
  | cons p t ih =>
      simp only [List.map_cons, List.mem_cons, not_or] at h
      have hstep : fitFold cats (p :: t) st
          = fitFold cats t (insertStat st p.1 (fitCol cats p.1 p.2)) := rfl
      rw [hstep, ih _ h.2, lookup_insertStat_ne _ _ _ _ (fun he => h.1 he.symm)]

theorem lookup_fit (g : SimpleGenerator) (df : DataFrame) (cats : List String)
    (col : String) (d : ColData)
    (hnd : (df.cols.map Prod.fst).Nodup) (hmem : (col, d) ∈ df.cols) :
    lookupStat (g.fit df cats).stats col = some (fitCol cats col d) := by
  rw [fit_stats_eq]
  revert hnd hmem
  generalize g.stats = st
  induction df.cols generalizing st with
  | nil => intro _ hmem; cases hmem
  | cons p t ih =>
      intro hnd hmem
      simp only [List.map_cons, List.nodup_cons] at hnd
      rcases List.mem_cons.1 hmem with h | h
      · subst h
        rw [show fitFold cats ((col, d) :: t) st
              = fitFold cats t (insertStat st col (fitCol cats col d)) from rfl,
          lookup_fitFold_notin _ _ _ _ hnd.1, lookup_insertStat_self]
      · exact ih _ hnd.2 h

theorem keys_nodup_mem_eq {β : Type} (l : List (String × β))
    (h : (l.map Prod.fst).Nodup) (a : String) (b b' : β)
    (h1 : (a, b) ∈ l) (h2 : (a, b') ∈ l) : b = b' := by
  induction l with
  | nil => cases h1
  | cons p t ih =>
      simp only [List.map_cons, List.nodup_cons] at h
      rcases List.mem_cons.1 h1 with e1 | e1 <;> rcases List.mem_cons.1 h2 with e2 | e2
      · exact congrArg Prod.snd (e1.trans e2.symm)
      · rw [← e1] at h
        exact absurd (List.mem_map.2 ⟨_, e2, rfl⟩) h.1
      · rw [← e2] at h
        exact absurd (List.mem_map.2 ⟨_, e1, rfl⟩) h.1
      · exact ih h.2 e1 e2

theorem fittedB_all (gen : SimpleGenerator) (hf : FittedB gen = true) :
    ∀ c ∈ gen.columns, ∃ s, lookupStat gen.stats c = some s ∧ sampleableB s = true := by
  intro c hc
  have h := (List.all_eq_true.1 hf) c hc
  cases hl : lookupStat gen.stats c with
  | none => rw [hl] at h; cases h
  | some s => rw [hl] at h; exact ⟨s, rfl, h⟩

theorem drawList_len (k g : Nat) : (drawList k g).1.length = k := by
  induction k generalizing g with
  | zero => rfl
  | succ k ih => simp [drawList, ih]

theorem sampleCol_ok (s : ColSummary) (hs : sampleableB s = true) (n : Int)
    (hn : 0 ≤ n) (g : Nat) :
    ∃ oc g', sampleCol s n g = .ok (oc, g') ∧ oc.length = n.toNat := by
  have hn' : ¬ n < 0 := not_lt.2 hn
  cases s with
  | categorical values probabilities =>
      simp only [sampleableB, Bool.not_eq_true'] at hs
      refine ⟨.cat ((drawList n.toNat g).1.map (pickVal values probabilities)),
        (drawList n.toNat g).2, ?_, ?_⟩
      · simp [sampleCol, npChoice, hs, hn']
      · simp [OutCol.length, drawList_len]
  | numerical mean std mn mx =>
      simp only [sampleableB, Bool.not_eq_true'] at hs
      refine ⟨.num ((drawList n.toNat g).1.map
          (fun z => pfClip (pfAdd mean (pfMul std (some z))) mn mx)),
        (drawList n.toNat g).2, ?_, ?_⟩
      · simp [sampleCol, npNormal, hs, hn']
      · simp [OutCol.length, drawList_len]

theorem sampleCols_ok (cols : List String) (stats : List (String × ColSummary))
    (n : Int) (hn : 0 ≤ n)
    (h : ∀ c ∈ cols, ∃ s, lookupStat stats c = some s ∧ sampleableB s = true)
    (g : Nat) :
    ∃ out g', sampleCols cols stats n g = .ok (out, g')
      ∧ out.map Prod.fst = cols ∧ ∀ p ∈ out, OutCol.length p.2 = n.toNat := by
  induction cols generalizing g with
  | nil => exact ⟨[], g, rfl, rfl, by simp⟩
  | cons c t ih =>
      obtain ⟨s, hl, hs⟩ := h c (List.mem_cons_self _ _)
      obtain ⟨oc, g1, hc, hlen⟩ := sampleCol_ok s hs n hn g
      obtain ⟨rest, g2, hrest, hnames, hlens⟩ :=
        ih (fun c' hc' => h c' (List.mem_cons_of_mem _ hc')) g1
      refine ⟨(c, oc) :: rest, g2, ?_, ?_, ?_⟩
      · simp [sampleCols, hl, hc, hrest]
      · simp [hnames]
      · intro p hp
        rcases List.mem_cons.1 hp with e | e
        · rw [e]; exact hlen
        · exact hlens p e

theorem sampleCol_neg (s : ColSummary) (hs : sampleableB s = true) (n : Int)
    (hn : n < 0) (g : Nat) : sampleCol s n g = .error .valueError := by
  cases s with
  | categorical values probabilities =>
      simp only [sampleableB, Bool.not_eq_true'] at hs
      simp [sampleCol, npChoice, hs, hn]
  | numerical mean std mn mx =>
      simp [sampleCol, npNormal, hn]

theorem sampleCols_mem (cols : List String) (stats : List (String × ColSummary))
    (n : Int) (g : Nat) (out : DataFrameOut) (g' : Nat)
    (h : sampleCols cols stats n g = .ok (out, g')) (col : String) (oc : OutCol)
    (hm : (col, oc) ∈ out) :
    ∃ s gA gB, lookupStat stats col = some s ∧ sampleCol s n gA = .ok (oc, gB) := by
  induction cols generalizing g out g' with
  | nil =>
      simp only [sampleCols, Except.ok.injEq, Prod.mk.injEq] at h
      rw [← h.1] at hm
      cases hm
  | cons c t ih =>
      unfold sampleCols at h
      split at h
      · cases h
      · rename_i s hl
        split at h
        · cases h
        · rename_i oc1 g1 hc
          split at h
          · cases h
          · rename_i rest g2 hrest
            simp only [Except.ok.injEq, Prod.mk.injEq] at h
            rw [← h.1] at hm
            rcases List.mem_cons.1 hm with e | e
            · have ec : col = c := congrArg Prod.fst e
              have eo : oc = oc1 := congrArg Prod.snd e
              subst ec
              exact ⟨s, g, g1, hl, by rw [← eo] at hc; exact hc⟩
            · exact ih g1 rest g2 hrest e

theorem foldl_min_le (t : List ℚ) (x : ℚ) : t.foldl min x ≤ x := by
  induction t generalizing x with
  | nil => exact le_refl x
  | cons y t ih => exact le_trans (ih (min x y)) (min_le_left x y)

theorem le_foldl_max (t : List ℚ) (x : ℚ) : x ≤ t.foldl max x := by
  induction t generalizing x with
  | nil => exact le_refl x
  | cons y t ih => exact le_trans (le_max_left x y) (ih (max x y))

theorem pdMin_le_pdMax (v : List ℚ) (hv : v ≠ []) :
    ∃ a b, pdMin v = some a ∧ pdMax v = some b ∧ a ≤ b := by
  match v, hv with
  | h :: t, _ =>
      exact ⟨t.foldl min h, t.foldl max h, rfl, rfl,
        le_trans (foldl_min_le t h) (le_foldl_max t h)⟩

theorem sampleCol_num_range (mv sv a b : ℚ) (hab : a ≤ b) (n : Int) (g : Nat)
    (oc : OutCol) (g' : Nat)
    (h : sampleCol (.numerical (some mv) (some sv) (some a) (some b)) n g
      = .ok (oc, g')) :
    ∃ vs, oc = OutCol.num vs ∧ ∀ x ∈ vs, inRangePF x (some a) (some b) = true := by
  cases hbs : badScale (some sv) with
  | true =>
      by_cases hn : n < 0 <;> simp [sampleCol, npNormal, hn, hbs] at h
  | false =>
      by_cases hn : n < 0
      · simp [sampleCol, npNormal, hn] at h
      · simp only [sampleCol, npNormal, if_neg hn, hbs, Bool.false_eq_true,
          if_false, Except.ok.injEq, Prod.mk.injEq] at h
        refine ⟨_, h.1.symm, ?_⟩
        intro x hx
        simp only [List.map_map, List.mem_map, Function.comp] at hx
        obtain ⟨z, _, hz⟩ := hx
        rw [← hz]
        simp only [pfClip, pfAdd, pfMul, pfMax2, pfMin2, inRangePF,
          Bool.and_eq_true, decide_eq_true_eq]
        exact ⟨le_min (le_max_right _ _) hab, min_le_right _ _⟩

theorem sampleCols_cons_some (c : String) (t : List String)
    (stats : List (String × ColSummary)) (n : Int) (g : Nat) (s : ColSummary)
    (hl : lookupStat stats c = some s) :
    sampleCols (c :: t) stats n g =
      (match sampleCol s n g with
        | .error e => .error e
        | .ok (oc, g') =>
            match sampleCols t stats n g' with
            | .error e => .error e
            | .ok (rest, g'') => .ok ((c, oc) :: rest, g'')) := by
  rw [sampleCols.eq_def]
  dsimp only
  rw [hl]

theorem sample_seed_ok (gen : SimpleGenerator) (n : Int) (s : Int) (g0 g1 : Nat)
    (h : npSeed s = .ok g1) :
    gen.sample n (some s) g0 = sampleCols gen.columns gen.stats n g1 := by
  unfold SimpleGenerator.sample
  dsimp only
  rw [h]

theorem sample_seed_err (gen : SimpleGenerator) (n : Int) (s : Int) (g0 : Nat)
    (e : PyErr) (h : npSeed s = .error e) :
    gen.sample n (some s) g0 = .error e := by
  unfold SimpleGenerator.sample
  dsimp only
  rw [h]

theorem npSeed_error_eq (s : Int) (e : PyErr) (h : npSeed s = .error e) :
    e = .valueError := by
  unfold npSeed at h
  split at h
  · exact (Except.error.inj h).symm
  · cases h

theorem pdMean_some (xs : List ℚ) (h : xs ≠ []) :
    pdMean xs = some (xs.sum / (xs.length : ℚ)) := by
  cases xs with
  | nil => exact absurd rfl h
  | cons a t => rfl

theorem pdStd_some (xs : List ℚ) (h : 2 ≤ xs.length) :
    pdStd xs = some (floatSqrt (pdVar xs)) := by
  unfold pdStd
  rw [if_neg (by omega)]

theorem sum_sq_dev (xs : List ℚ) (c : ℚ) :
    (xs.map (fun x => (x - c) ^ 2)).sum
      = (xs.map (fun x => x ^ 2)).sum - 2 * c * xs.sum + (xs.length : ℚ) * c ^ 2 := by
  induction xs with
  | nil => simp
  | cons a t ih =>
      simp only [List.map_cons, List.sum_cons, List.length_cons, ih]
      push_cast
      ring

theorem pdVar_eq_spec (xs : List ℚ) (h : xs ≠ []) :
    pdVar xs = ((xs.map (fun x => x ^ 2)).sum - xs.sum ^ 2 / (xs.length : ℚ))
      / ((xs.length : ℚ) - 1) := by
  have hn : (xs.length : ℚ) ≠ 0 := by
    exact_mod_cast fun h0 => h (List.length_eq_zero.1 (by exact_mod_cast h0))
  unfold pdVar
  rw [sum_sq_dev]
  congr 1
  field_simp
  ring

theorem pdStd_eq_spec (xs : List ℚ) : pdStd xs = specSampleStd xs := by
  unfold pdStd specSampleStd
  by_cases h : xs.length ≤ 1
  · simp [h]
  · have hne : xs ≠ [] := by
      intro h0
      rw [h0] at h
      exact h (by simp)
    simp only [h, if_false]
    rw [pdVar_eq_spec xs hne]

/- ### Claim theorems -/

/-- C1: for every fitted container, every strictly positive n and every
integer seed, two runs of `SimpleGenerator.sample` with the same
container, n and seed are equal cell-for-cell, whatever the prior state of
the global random stream (the seed call resets it). -/
theorem sample_deterministic_for_seed (gen : SimpleGenerator) (n : Int) (s : Int)
    (hn : 0 < n) (hf : FittedB gen = true) (g1 g2 : Nat) :
    gen.sample n (some s) g1 = gen.sample n (some s) g2 := rfl

/-- C1 witness: the example container sampled twice with seed 7 from two
different prior stream states. -/
theorem sample_deterministic_for_seed_witness :
    (0 : Int) < 3 ∧ FittedB egGen = true
      ∧ egGen.sample 3 (some 7) 0 = egGen.sample 3 (some 7) 99 :=
  ⟨by decide, by decide,
    sample_deterministic_for_seed egGen 3 7 (by decide) (by decide) 0 99⟩

/-- C5 counterexample: the cache is not keyed by `model_path`.  With two
distinct containers persisted at "p1" and "p2", loading "p1" first and
then asking for "p2" returns the container from "p1", not the one stored
at "p2". -/
theorem cache_not_keyed_counterexample :
    load_model fsTwo none "p1" = .ok (mdEg, some mdEg)
      ∧ load_model fsTwo (some mdEg) "p2" = .ok (mdEg, some mdEg)
      ∧ fsTwo "p2" = some mdEmpty
      ∧ mdEg ≠ mdEmpty := by
  refine ⟨by decide, rfl, by decide, by decide⟩

/-- C5 amended: the Generation Facade's cache is a single process-wide
slot, not keyed by path: the first call with an empty cache loads from the
given path (failing with FileNotFoundError when it is missing) and retains
the result, and every later call returns the retained container regardless
of the `model_path` argument. -/
theorem cache_single_slot_amended (fs : FS) (path : String) :
    (∀ md, fs path = some md → load_model fs none path = .ok (md, some md))
      ∧ (fs path = none → load_model fs none path = .error .fileNotFoundError)
      ∧ (∀ m, load_model fs (some m) path = .ok (m, some m)) := by
  refine ⟨fun md h => ?_, fun h => ?_, fun m => rfl⟩
  · simp [load_model, h]
  · simp [load_model, h]

/-- C5 amended witness: cold load from "p1", failure on a missing path,
and the warm cache overriding the path argument. -/
theorem cache_single_slot_amended_witness :
    (fsTwo "p1" = some mdEg ∧ load_model fsTwo none "p1" = .ok (mdEg, some mdEg))
      ∧ (fsEmpty "z" = none
          ∧ load_model fsEmpty none "z" = .error .fileNotFoundError)
      ∧ load_model fsTwo (some mdEmpty) "p1" = .ok (mdEmpty, some mdEmpty) :=
  ⟨⟨by decide, (cache_single_slot_amended fsTwo "p1").1 mdEg (by decide)⟩,
   ⟨rfl, (cache_single_slot_amended fsEmpty "z").2.1 rfl⟩,
   (cache_single_slot_amended fsTwo "p1").2.2 mdEmpty⟩

/-- C6: persisting a container and reloading it (in a fresh process, whose
module cache is still empty) returns a structurally equal container —
same column list, categorical set and summaries, compared exactly — and
loading from a missing path fails with FileNotFoundError. -/
theorem save_load_roundtrip (fs : FS) (c : ModelData) (path missing : String)
    (hmiss : fs missing = none) :
    load_model (save_simple_model fs c path) none path = .ok (c, some c)
      ∧ load_model fs none missing = .error .fileNotFoundError := by
  constructor
  · simp [load_model, save_simple_model]
  · simp [load_model, hmiss]

/-- C6 witness: round-trip of the example container and a missing-path
failure on the empty file system. -/
theorem save_load_roundtrip_witness :
    fsEmpty "other" = none
      ∧ load_model (save_simple_model fsEmpty mdEg "m.joblib") none "m.joblib"
          = .ok (mdEg, some mdEg)
      ∧ load_model fsEmpty none "other" = .error .fileNotFoundError :=
  ⟨rfl, (save_load_roundtrip fsEmpty mdEg "m.joblib" "other" rfl).1,
   (save_load_roundtrip fsEmpty mdEg "m.joblib" "other" rfl).2⟩

/-- C10: fitting twice on one generator object does not reset previously
learned state: a column of the first table absent from the second table
keeps its summary in `stats`, while the declared column list no longer
contains it — the summarized-columns-equal-declared-columns invariant is
broken. -/
theorem fit_retains_stale_stats (g0 : SimpleGenerator) (df1 df2 : DataFrame)
    (c1 c2 : List String) (col : String) (d : ColData)
    (h1 : (col, d) ∈ df1.cols) (h2 : col ∉ df2.cols.map Prod.fst) :
    (lookupStat ((g0.fit df1 c1).fit df2 c2).stats col).isSome = true
      ∧ col ∉ ((g0.fit df1 c1).fit df2 c2).columns := by
  constructor
  · rw [fit_stats_eq]
    exact lookup_fitFold_isSome _ _ _ _
      (by rw [fit_stats_eq]; exact lookup_fitFold_mem_isSome _ _ _ _ _ h1)
  · exact h2

/-- C10 witness: fit on the one-column table `dfOne` ("x"), then refit on
the example table (columns "age", "sex"): the stale "x" summary
survives. -/
theorem fit_retains_stale_stats_witness :
    (("x", ColData.numCol [some 5]) ∈ dfOne.cols
        ∧ "x" ∉ egDf.cols.map Prod.fst)
      ∧ (lookupStat ((initGen.fit dfOne []).fit egDf ["sex"]).stats "x").isSome = true
      ∧ "x" ∉ ((initGen.fit dfOne []).fit egDf ["sex"]).columns :=
  ⟨⟨by decide, by decide⟩,
   (fit_retains_stale_stats initGen dfOne egDf [] ["sex"] "x"
      (ColData.numCol [some 5]) (by decide) (by decide)).1,
   (fit_retains_stale_stats initGen dfOne egDf [] ["sex"] "x"
      (ColData.numCol [some 5]) (by decide) (by decide)).2⟩

/-- C3 counterexample: a container fitted from a numerical column with a
single non-missing value stores std = NaN; sampling then produces NaN
cells, which lie in no closed interval, so range containment fails for
this fitted container. -/
theorem sample_range_nan_counterexample :
    okTable (genOne.sample 1 (some 0) 0) = some [("x", OutCol.num [none])]
      ∧ lookupStat genOne.stats "x"
          = some (.numerical (some 5) none (some 5) (some 5))
      ∧ inRangePF none (some 5) (some 5) = false := by
  refine ⟨by decide, by decide, rfl⟩

/-- C4 counterexample: `SimpleGenerator.sample` does not validate `n`:
at n = 0 it returns an empty zero-row table instead of failing with
InvalidArgument. -/
theorem sample_zero_rows_counterexample :
    okTable (egGen.sample 0 (some 1) 0)
      = some [("age", OutCol.num []), ("sex", OutCol.cat [])] := by
  decide

/-- C8 counterexample: fitting a numerical column with exactly one
non-missing value stores std = NaN (pandas `std` with the n-1 divisor is
undefined there), not 0 as the claim states. -/
theorem std_single_value_counterexample :
    lookupStat genOne.stats "x"
        = some (.numerical (some 5) none (some 5) (some 5))
      ∧ stdOf (ColSummary.numerical (some 5) none (some 5) (some 5))
          ≠ some (some 0) := by
  refine ⟨by decide, by decide⟩

/-- C9 counterexample: fitting a table whose only column is entirely
missing does not fail with a DataError: `fit` returns a container whose
summary for that column is all-NaN. -/
theorem fit_all_missing_counterexample :
    initGen.fit dfAllMissing []
      = ⟨["x"], [], [("x", .numerical none none none none)]⟩ := by
  decide



/-- C2: for every fitted container and strictly positive n (and a seed
`np.random.seed` accepts), `sample` succeeds with a table whose column
list equals the container's declared columns in declared order and whose
every column holds exactly n cells. -/
theorem sample_shape (gen : SimpleGenerator) (n : Int) (seed : Option Int)
    (hn : 0 < n) (hf : FittedB gen = true) (hs : seedOK seed = true) (g0 : Nat) :
    ∃ out g', gen.sample n seed g0 = .ok (out, g')
      ∧ out.map Prod.fst = gen.columns
      ∧ ∀ p ∈ out, OutCol.length p.2 = n.toNat := by
  have hall := fittedB_all gen hf
  cases seed with
  | none => exact sampleCols_ok gen.columns gen.stats n (le_of_lt hn) hall g0
  | some s =>
      simp only [seedOK, Bool.and_eq_true, decide_eq_true_eq] at hs
      have hseed : npSeed s = .ok (rngNext (s.toNat + 2654435769)) := by
        unfold npSeed
        rw [if_neg (by push_neg; exact hs)]
      rw [sample_seed_ok gen n s g0 _ hseed]
      exact sampleCols_ok gen.columns gen.stats n (le_of_lt hn) hall _

/-- C2 witness: the example container, n = 2, seed 7. -/
theorem sample_shape_witness :
    ((0 : Int) < 2 ∧ FittedB egGen = true ∧ seedOK (some 7) = true)
      ∧ (∃ out g', egGen.sample 2 (some 7) 0 = .ok (out, g')
          ∧ out.map Prod.fst = egGen.columns
          ∧ ∀ p ∈ out, OutCol.length p.2 = (2 : Int).toNat) :=
  ⟨⟨by decide, by decide, by decide⟩,
   sample_shape egGen 2 (some 7) (by decide) (by decide) (by decide) 0⟩

/-- C4 amended: the Generation Facade's `generate` rejects every n ≤ 0
with ValueError before loading anything; the Sampler itself rejects only
negative n (via the draw functions, with ValueError) when it has at least
one fitted column, while n = 0 is not validated there (the counterexample
shows it returns an empty table). -/
theorem nonpositive_n_amended (fs : FS) (cache : Option ModelData) (n : Int)
    (seed : Option Int) (path : String) (g : Nat) (gen : SimpleGenerator) :
    (n ≤ 0 → generate fs cache n seed path g = .error .valueError)
      ∧ (n < 0 → gen.columns ≠ [] → FittedB gen = true →
          gen.sample n seed g = .error .valueError) := by
  constructor
  · intro hn
    unfold generate
    rw [if_pos hn]
  · intro hn hcols hf
    obtain ⟨c, t, hct⟩ : ∃ c t, gen.columns = c :: t := by
      cases hc : gen.columns with
      | nil => exact absurd hc hcols
      | cons c t => exact ⟨c, t, rfl⟩
    obtain ⟨s, hl, hs⟩ := fittedB_all gen hf c (by rw [hct]; exact List.mem_cons_self _ _)
    have hneg : ∀ g1, sampleCols gen.columns gen.stats n g1 = .error .valueError := by
      intro g1
      rw [hct, sampleCols_cons_some c t gen.stats n g1 s hl,
        sampleCol_neg s hs n hn g1]
    cases seed with
    | none => exact hneg g
    | some s0 =>
        cases hseed : npSeed s0 with
        | error e =>
            rw [sample_seed_err gen n s0 g e hseed, npSeed_error_eq s0 e hseed]
        | ok g1 => rw [sample_seed_ok gen n s0 g g1 hseed]; exact hneg g1

/-- C4 amended witness: `generate` at n = -2 and the Sampler at n = -1 on
the example container. -/
theorem nonpositive_n_amended_witness :
    generate fsTwo none (-2) (some 3) "p1" 0 = .error .valueError
      ∧ egGen.sample (-1) (some 3) 0 = .error .valueError :=
  ⟨(nonpositive_n_amended fsTwo none (-2) (some 3) "p1" 0 egGen).1 (by decide),
   (nonpositive_n_amended fsTwo none (-1) (some 3) "p1" 0 egGen).2
      (by decide) (by decide) (by decide)⟩

/-- C7: `detect_categorical_columns` (the auto-detection the training
pipeline runs before fitting), at its default thresholds, classifies a
column as categorical iff its dtype is object, or it has at most 20
distinct values, or its distinct-to-rows ratio is at most 3/10. -/
theorem detect_categorical_iff (df : DataFrame) (name : String) (d : ColData)
    (hnd : (df.cols.map Prod.fst).Nodup) (hmem : (name, d) ∈ df.cols) :
    name ∈ detect_categorical_columns df (3 / 10) 20
      ↔ (d.isObj = true ∨ d.nunique ≤ 20
          ∨ (d.nunique : ℚ) / (df.nrows : ℚ) ≤ 3 / 10) := by
  unfold detect_categorical_columns
  constructor
  · intro h
    obtain ⟨p, hp, hpn⟩ := List.mem_map.1 h
    have hpf := List.mem_filter.1 hp
    have hpd : p.2 = d := by
      refine keys_nodup_mem_eq df.cols hnd name p.2 d ?_ hmem
      have : (p.1, p.2) ∈ df.cols := hpf.1
      rw [hpn] at this
      exact this
    have hcond := hpf.2
    rw [hpd] at hcond
    simpa only [Bool.or_eq_true, decide_eq_true_eq, or_assoc] using hcond
  · intro h
    refine List.mem_map.2 ⟨(name, d), List.mem_filter.2 ⟨hmem, ?_⟩, rfl⟩
    simp only [Bool.or_eq_true, decide_eq_true_eq, or_assoc]
    exact h

/-- C7 witness: the "age" column of the example table (5 distinct values
out of 5 rows: numeric dtype, low cardinality). -/
theorem detect_categorical_iff_witness :
    ((egDf.cols.map Prod.fst).Nodup
        ∧ ("age", ColData.numCol [some 20, some 30, some 40, some 50, some 60])
            ∈ egDf.cols)
      ∧ ("age" ∈ detect_categorical_columns egDf (3 / 10) 20
          ↔ ((ColData.numCol [some 20, some 30, some 40, some 50, some 60]).isObj = true
              ∨ (ColData.numCol [some 20, some 30, some 40, some 50, some 60]).nunique ≤ 20
              ∨ ((ColData.numCol [some 20, some 30, some 40, some 50, some 60]).nunique : ℚ)
                  / (egDf.nrows : ℚ) ≤ 3 / 10)) :=
  ⟨⟨by decide, by decide⟩,
   detect_categorical_iff egDf "age"
     (ColData.numCol [some 20, some 30, some 40, some 50, some 60])
     (by decide) (by decide)⟩

/-- C8 amended: for every numerical column the Fitter stores as std the
(floating-point) square root of the sample variance with the n-1 divisor
over the non-missing values — equal to the spec-side closed formula
√((Σx² − (Σx)²/n)/(n−1)) — and when the column has exactly one
non-missing value the stored std is NaN, not 0. -/
theorem std_formula_amended (g0 : SimpleGenerator) (df : DataFrame)
    (cats : List String) (col : String) (cells : List (Option ℚ))
    (hnd : (df.cols.map Prod.fst).Nodup)
    (hmem : (col, ColData.numCol cells) ∈ df.cols) (hcat : col ∉ cats) :
    lookupStat (g0.fit df cats).stats col
      = some (.numerical (pdMean (cells.filterMap id))
          (specSampleStd (cells.filterMap id))
          (pdMin (cells.filterMap id)) (pdMax (cells.filterMap id)))
      ∧ ((cells.filterMap id).length = 1 →
          lookupStat (g0.fit df cats).stats col
            = some (.numerical (pdMean (cells.filterMap id)) none
                (pdMin (cells.filterMap id)) (pdMax (cells.filterMap id)))) := by
  have h1 := lookup_fit g0 df cats col _ hnd hmem
  have h2 : fitCol cats col (ColData.numCol cells)
      = .numerical (pdMean (cells.filterMap id)) (pdStd (cells.filterMap id))
          (pdMin (cells.filterMap id)) (pdMax (cells.filterMap id)) := by
    simp [fitCol, hcat]
  constructor
  · rw [h1, h2, pdStd_eq_spec]
  · intro hlen
    rw [h1, h2]
    unfold pdStd
    rw [if_pos (by omega)]

/-- C8 amended witness: the three-value column [1,2,3] (variance 1). -/
theorem std_formula_amended_witness :
    ((dfThree.cols.map Prod.fst).Nodup
        ∧ ("y", ColData.numCol [some 1, some 2, some 3]) ∈ dfThree.cols
        ∧ "y" ∉ ([] : List String))
      ∧ lookupStat (initGen.fit dfThree []).stats "y"
          = some (.numerical (pdMean ([some 1, some 2, some 3].filterMap id))
              (specSampleStd ([some 1, some 2, some 3].filterMap id))
              (pdMin ([some 1, some 2, some 3].filterMap id))
              (pdMax ([some 1, some 2, some 3].filterMap id))) :=
  ⟨⟨by decide, by decide, by decide⟩,
   (std_formula_amended initGen dfThree [] "y" [some 1, some 2, some 3]
      (by decide) (by decide) (by decide)).1⟩

/-- C9 amended: missing values are excluded from every column's
statistics (each summary is a function of the non-missing cells alone:
appending a missing cell changes nothing, for both dtypes), but a column
that is entirely missing does not fail fitting — `fit` returns a
container whose summary for it is all-NaN. -/
theorem fit_missing_excluded_amended (g0 : SimpleGenerator) (df : DataFrame)
    (cats : List String) (col : String) (cells : List (Option ℚ))
    (hnd : (df.cols.map Prod.fst).Nodup)
    (hmem : (col, ColData.numCol cells) ∈ df.cols) (hcat : col ∉ cats) :
    lookupStat (g0.fit df cats).stats col
      = some (.numerical (pdMean (cells.filterMap id)) (pdStd (cells.filterMap id))
          (pdMin (cells.filterMap id)) (pdMax (cells.filterMap id)))
      ∧ fitCol cats col (.numCol (cells ++ [none])) = fitCol cats col (.numCol cells)
      ∧ (∀ cells' : List (Option String),
          fitCol cats col (.objCol (cells' ++ [none]))
            = fitCol cats col (.objCol cells'))
      ∧ (cells.filterMap id = [] →
          lookupStat (g0.fit df cats).stats col
            = some (.numerical none none none none)) := by
  have h1 := lookup_fit g0 df cats col _ hnd hmem
  have h2 : fitCol cats col (ColData.numCol cells)
      = .numerical (pdMean (cells.filterMap id)) (pdStd (cells.filterMap id))
          (pdMin (cells.filterMap id)) (pdMax (cells.filterMap id)) := by
    simp [fitCol, hcat]
  refine ⟨by rw [h1, h2], ?_, ?_, ?_⟩
  · simp [fitCol, hcat, List.filterMap_append]
  · intro cells'
    simp [fitCol, ColData.nonMissing, List.filterMap_append]
  · intro hv
    rw [h1, h2, hv]
    simp [pdMean, pdStd, pdMin, pdMax]

/-- C9 amended witness: the all-missing column table. -/
theorem fit_missing_excluded_amended_witness :
    ((dfAllMissing.cols.map Prod.fst).Nodup
        ∧ ("x", ColData.numCol [none]) ∈ dfAllMissing.cols
        ∧ "x" ∉ ([] : List String)
        ∧ ([none] : List (Option ℚ)).filterMap id = [])
      ∧ lookupStat (initGen.fit dfAllMissing []).stats "x"
          = some (.numerical none none none none) :=
  ⟨⟨by decide, by decide, by decide, by decide⟩,
   (fit_missing_excluded_amended initGen dfAllMissing [] "x" [none]
      (by decide) (by decide) (by decide)).2.2.2 (by decide)⟩

/-- C3 amended: for every container fitted from a table, every numerical
column with at least two non-missing training values has non-NaN stored
min ≤ max, and whenever sampling succeeds, every synthetic cell of that
column lies in the closed interval [stored min, stored max] — out-of-range
normal draws are clamped by `np.clip`, never redrawn.  (With fewer than
two non-missing values the stored std is NaN and the synthetic cells are
NaN: the counterexample.) -/
theorem sample_range_containment_amended (g0 : SimpleGenerator) (df : DataFrame)
    (cats : List String) (col : String) (cells : List (Option ℚ))
    (hnd : (df.cols.map Prod.fst).Nodup)
    (hmem : (col, ColData.numCol cells) ∈ df.cols) (hcat : col ∉ cats)
    (hlen : 2 ≤ (cells.filterMap id).length) :
    ∃ a b, pdMin (cells.filterMap id) = some a
      ∧ pdMax (cells.filterMap id) = some b ∧ a ≤ b
      ∧ lookupStat (g0.fit df cats).stats col
          = some (.numerical (pdMean (cells.filterMap id))
              (pdStd (cells.filterMap id)) (some a) (some b))
      ∧ ∀ n seed gIn out gOut,
          (g0.fit df cats).sample n seed gIn = .ok (out, gOut) →
          ∀ oc, (col, oc) ∈ out → ∃ vs, oc = OutCol.num vs
            ∧ ∀ x ∈ vs, inRangePF x (some a) (some b) = true := by
  have hv : cells.filterMap id ≠ [] := by
    intro h0
    rw [h0] at hlen
    simp at hlen
  obtain ⟨a, b, hmin, hmax, hab⟩ := pdMin_le_pdMax _ hv
  have h1 := lookup_fit g0 df cats col _ hnd hmem
  have h2 : fitCol cats col (ColData.numCol cells)
      = .numerical (pdMean (cells.filterMap id)) (pdStd (cells.filterMap id))
          (pdMin (cells.filterMap id)) (pdMax (cells.filterMap id)) := by
    simp [fitCol, hcat]
  refine ⟨a, b, hmin, hmax, hab, by rw [h1, h2, hmin, hmax], ?_⟩
  intro n seed gIn out gOut hok oc hmem'
  have hcols : ∃ g1, sampleCols (g0.fit df cats).columns (g0.fit df cats).stats n g1
      = .ok (out, gOut) := by
    cases seed with
    | none => exact ⟨gIn, hok⟩
    | some s =>
        cases hseed : npSeed s with
        | error e => rw [sample_seed_err _ _ _ _ _ hseed] at hok; cases hok
        | ok g1 => rw [sample_seed_ok _ _ _ _ _ hseed] at hok; exact ⟨g1, hok⟩
  obtain ⟨g1, hcols⟩ := hcols
  obtain ⟨s, gA, gB, hls, hsc⟩ := sampleCols_mem _ _ _ _ _ _ hcols col oc hmem'
  have hs_eq : s = ColSummary.numerical (pdMean (cells.filterMap id))
      (pdStd (cells.filterMap id)) (pdMin (cells.filterMap id))
      (pdMax (cells.filterMap id)) := by
    rw [h1, h2] at hls
    exact (Option.some.inj hls).symm
  rw [hs_eq, pdMean_some _ hv, pdStd_some _ hlen, hmin, hmax] at hsc
  exact sampleCol_num_range _ _ a b hab n gA oc gB hsc

/-- C3 amended witness: the "age" column of the example table (five
non-missing values, range [20, 60]). -/
theorem sample_range_containment_amended_witness :
    ((egDf.cols.map Prod.fst).Nodup
        ∧ ("age", ColData.numCol [some 20, some 30, some 40, some 50, some 60])
            ∈ egDf.cols
        ∧ "age" ∉ ["sex"]
        ∧ 2 ≤ (([some 20, some 30, some 40, some 50, some 60] :
              List (Option ℚ)).filterMap id).length)
      ∧ (∃ a b,
          pdMin ([some 20, some 30, some 40, some 50, some 60].filterMap id) = some a
          ∧ pdMax ([some 20, some 30, some 40, some 50, some 60].filterMap id) = some b
          ∧ a ≤ b
          ∧ lookupStat (initGen.fit egDf ["sex"]).stats "age"
              = some (.numerical
                  (pdMean ([some 20, some 30, some 40, some 50, some 60].filterMap id))
                  (pdStd ([some 20, some 30, some 40, some 50, some 60].filterMap id))
                  (some a) (some b))
          ∧ ∀ n seed gIn out gOut,
              (initGen.fit egDf ["sex"]).sample n seed gIn = .ok (out, gOut) →
              ∀ oc, ("age", oc) ∈ out → ∃ vs, oc = OutCol.num vs
                ∧ ∀ x ∈ vs, inRangePF x (some a) (some b) = true) :=
  ⟨⟨by decide, by decide, by decide, by decide⟩,
   sample_range_containment_amended initGen egDf ["sex"] "age"
     [some 20, some 30, some 40, some 50, some 60]
     (by decide) (by decide) (by decide) (by decide)⟩
